import Mathlib

/-!
Verification of the Chrome DevTools Protocol client in
`backend/mcp_servers/terminal_browser/server.py`.

The Python client is shallowly embedded here:

* `CDP` is the mutable state of a `ChromeDevTools` object
  (`message_id`, `responses`, `events`); `listenStep` embeds one iteration
  of the `_listen` receive loop, `send_command` embeds `send_command`
  (id allocation followed by the 100-round, 0.1 s polling wait, with the
  frames handed to the listener between polls made explicit as `batches`);
  `navigate` embeds `navigate`.
* `JVal` is a small JSON universe used to embed `execute_script`, whose
  behaviour depends on the shape of the reply payload.
* `resolveElementRef` embeds the `element:<n>` resolution block that is
  duplicated in `browser_click` and `browser_type`; `pyInt` models
  Python's `int()` on ASCII strings and `splitOnChar` models `str.split`.
* `clickPoint`/`click_run` and `type_text_run` embed the command traces
  of `ChromeDevTools.click` and `ChromeDevTools.type_text`.
* `add_overlays` embeds `_add_overlays` over a symbolic image algebra
  (`Encoded`, `PILImage`, `DrawOp`): decoding, drawing and re-encoding are
  kept abstract but the geometry, the labels, the drawing order and the
  output format are exactly those of the source.
-/

set_option maxHeartbeats 1000000

namespace TerminalBrowser

/-! ## Wire frames and correlator state -/

/-- One inbound wire frame, after `json.loads`: either a reply (carries an
`id`) or an event (no `id`).  The payload is opaque for the correlator,
modelled by a `Nat` tag. -/
structure Frame where
  idField : Option Nat
  body : Nat
deriving DecidableEq, Repr

/-- The mutable state of one `ChromeDevTools` object:
`self.message_id`, `self.responses` (a dict, modelled as an association
list with unique keys maintained by `dinsert`) and `self.events`. -/
structure CDP where
  message_id : Nat
  responses : List (Nat × Frame)
  events : List Frame
deriving DecidableEq, Repr

/-- The state right after `ChromeDevTools.__init__`. -/
def initCDP : CDP := ⟨0, [], []⟩

/-- Python dict assignment `d[k] = v`: overwrite the entry for `k` if
present, otherwise append. -/
def dinsert (k : Nat) (v : Frame) : List (Nat × Frame) → List (Nat × Frame)
  | [] => [(k, v)]
  | (k', v') :: rest => if k' = k then (k, v) :: rest else (k', v') :: dinsert k v rest

/-- Python dict lookup / membership test. -/
def dlookup (k : Nat) : List (Nat × Frame) → Option Frame
  | [] => none
  | (k', v') :: rest => if k' = k then some v' else dlookup k rest

/-- Python `d.pop(k)`: remove the entry for `k`. -/
def dpop (k : Nat) : List (Nat × Frame) → List (Nat × Frame)
  | [] => []
  | (k', v') :: rest => if k' = k then rest else (k', v') :: dpop k rest

/-- One iteration of `ChromeDevTools._listen`: a frame with an `id` is
stored in `responses` under that id, any other frame is appended to
`events`. -/
def listenStep (s : CDP) (f : Frame) : CDP :=
  match f.idField with
  | some i => { s with responses := dinsert i f s.responses }
  | none => { s with events := s.events ++ [f] }

/-- The receive loop applied to a batch of frames in arrival order. -/
def listenMany (s : CDP) (fs : List Frame) : CDP := fs.foldl listenStep s

/-- The polling wait of `send_command`: up to `fuel` rounds (100 in the
source); before each membership check the listener task may have
processed a batch of inbound frames (`batches.headD []`).  A hit pops the
entry and returns it; exhausting the fuel models `TimeoutError`. -/
def waitLoop (m : Nat) : Nat → List (List Frame) → CDP → Option Frame × CDP
  | 0, _, s => (none, s)
  | fuel + 1, batches, s =>
    let s1 := listenMany s (batches.headD [])
    match dlookup m s1.responses with
    | some r => (some r, { s1 with responses := dpop m s1.responses })
    | none => waitLoop m fuel batches.tail s1

/-- Result of one `send_command`: the id it allocated, the reply it
returned (`none` models the raised `TimeoutError`) and the state left
behind. -/
structure SendResult where
  mid : Nat
  reply : Option Frame
  state : CDP
deriving DecidableEq, Repr

/-- `ChromeDevTools.send_command`: increment `message_id`, send the framed
request, then poll `responses` for the allocated id (100 rounds). -/
def send_command (s : CDP) (batches : List (List Frame)) : SendResult :=
  let mid := s.message_id + 1
  let s1 : CDP := { s with message_id := mid }
  let r := waitLoop mid 100 batches s1
  ⟨mid, r.1, r.2⟩

/-- `ChromeDevTools.navigate`: one `send_command` for `Page.navigate`,
then a second `send_command` for the string `"Page.loadEventFired"`
(issued as a request, not awaited as an event); returns the first reply.
A timeout in either propagates (`none`). -/
def navigate (s : CDP) (b1 b2 : List (List Frame)) : Option Frame × CDP :=
  let r1 := send_command s b1
  match r1.reply with
  | none => (none, r1.state)
  | some nav =>
    let r2 := send_command r1.state b2
    match r2.reply with
    | none => (none, r2.state)
    | some _ => (some nav, r2.state)

/-- An interleaving step of the connection's lifetime: either the receive
task processes one inbound frame, or some caller runs a full
`send_command`. -/
inductive Op where
  | recv (f : Frame)
  | call (batches : List (List Frame))
deriving DecidableEq, Repr

/-- Record of one completed `send_command` in a run. -/
structure CallRec where
  mid : Nat
  reply : Option Frame
deriving DecidableEq, Repr

/-- Run a sequence of interleaving steps, collecting one `CallRec` per
`send_command` in issue order. -/
def runOps : CDP → List Op → CDP × List CallRec
  | s, [] => (s, [])
  | s, .recv f :: rest => runOps (listenStep s f) rest
  | s, .call bs :: rest =>
    let r := send_command s bs
    let q := runOps r.state rest
    (q.1, ⟨r.mid, r.reply⟩ :: q.2)

/-- Every stored reply sits under its own id: the invariant that makes
"a reply is only ever handed to the call that allocated its id" true. -/
def WellKeyed (s : CDP) : Prop := ∀ p ∈ s.responses, p.2.idField = some p.1

/-! ## JSON values and `execute_script` -/

/-- A small JSON universe, enough for CDP reply payloads. -/
inductive JVal where
  | null
  | jbool (b : Bool)
  | jint (n : Int)
  | jstr (s : String)
  | jobj (fields : List (String × JVal))
deriving Repr

/-- First-match lookup in a JSON object's field list. -/
def jlookup (k : String) : List (String × JVal) → Option JVal
  | [] => none
  | (k', v) :: rest => if k' = k then some v else jlookup k rest

/-- `v[k]` / `k in v` on a JSON object (`none` models `KeyError` and the
non-dict case, which the source never exercises on conformant replies). -/
def jget : JVal → String → Option JVal
  | .jobj fields, k => jlookup k fields
  | _, _ => none

/-- The two dict shapes `execute_script` can return, plus `none` in
`Option` for an uncaught `KeyError` on a malformed frame. -/
inductive ScriptOut where
  | success (value : JVal)
  | error (text : JVal)
deriving Repr

/-- `ChromeDevTools.execute_script`, as a function of the reply frame
returned by `send_command`: if `result['result']` contains
`exceptionDetails` it returns the failure dict carrying
`exceptionDetails['text']`, otherwise the success dict carrying
`result['result'].get('value')` (Python `None` when the key is absent,
modelled as `JVal.null`). -/
def execute_script (frame : JVal) : Option ScriptOut :=
  match jget frame "result" with
  | none => none
  | some res =>
    match jget res "exceptionDetails" with
    | some ed =>
      match jget ed "text" with
      | some t => some (.error t)
      | none => none
    | none => some (.success ((jget res "value").getD .null))

/-- The reply frame real CDP sends for `Runtime.evaluate` of `1+1`
with `returnByValue`: the computed value sits at
`result.result.value`. -/
def frame_one_plus_one : JVal :=
  .jobj [("id", .jint 1),
         ("result", .jobj [("result", .jobj [("type", .jstr "number"), ("value", .jint 2)])])]

/-- A conformant CDP reply for an evaluate that threw: `exceptionDetails`
sits beside the inner `result` object. -/
def frame_with_exception : JVal :=
  .jobj [("id", .jint 2),
         ("result", .jobj
           [("result", .jobj [("type", .jstr "object")]),
            ("exceptionDetails", .jobj
              [("text", .jstr "Uncaught"),
               ("exception", .jobj [("description", .jstr "ReferenceError: x is not defined")])])])]

/-! ## Elements, selector resolution -/

/-- One entry of the element registry produced by
`get_interactive_elements` (tag, input type, truncated label, centre,
size, best-effort CSS selector). -/
structure Elem where
  tag : String
  etype : Option String
  text : String
  x : ℚ
  y : ℚ
  width : ℚ
  height : ℚ
  selector : String
deriving DecidableEq, Repr

/-- `pre` is an initial segment of `l` (used for Python
`str.startswith`). -/
def beginsWith : List Char → List Char → Bool
  | [], _ => true
  | _ :: _, [] => false
  | a :: as, b :: bs => a = b && beginsWith as bs

/-- Python `str.split(sep)` for a one-character separator. -/
def splitOnChar (sep : Char) : List Char → List (List Char)
  | [] => [[]]
  | c :: cs =>
    let r := splitOnChar sep cs
    if c = sep then [] :: r
    else
      match r with
      | [] => [[c]]
      | h :: t => (c :: h) :: t

/-- The ASCII whitespace Python's `int()` strips. -/
def isPySpace (c : Char) : Bool :=
  c = ' ' || c = '\t' || c = '\n' || c = '\r' || c = '\x0b' || c = '\x0c'

/-- Numeric value of an ASCII digit. -/
def digitVal (c : Char) : Nat := c.toNat - 48

/-- Digits with single underscores allowed between digits, as in Python's
integer grammar; accumulates onto `acc`. -/
def pyDigitsGo : List Char → Nat → Option Nat
  | [], acc => some acc
  | '_' :: c :: cs, acc => if c.isDigit then pyDigitsGo cs (acc * 10 + digitVal c) else none
  | ['_'], _ => none
  | c :: cs, acc => if c.isDigit then pyDigitsGo cs (acc * 10 + digitVal c) else none

/-- A nonempty digit group (Python integer literal body). -/
def pyDigits : List Char → Option Nat
  | [] => none
  | c :: cs => if c.isDigit then pyDigitsGo cs (digitVal c) else none

/-- Python `int(s)` on ASCII strings: strip whitespace, optional single
sign, then a digit group; `none` models the raised `ValueError`. -/
def pyInt (cs : List Char) : Option Int :=
  match (cs.dropWhile isPySpace).reverse.dropWhile isPySpace |>.reverse with
  | '+' :: rest => (pyDigits rest).map (fun n => (n : Int))
  | '-' :: rest => (pyDigits rest).map (fun n => -(n : Int))
  | rest => (pyDigits rest).map (fun n => (n : Int))

/-- `selector.split(":")[1]` from the source. -/
def secondField (s : String) : List Char :=
  ((splitOnChar ':' s.data).get? 1).getD []

/-- Outcome of the `element:<n>` resolution block shared by
`browser_click` and `browser_type`. -/
inductive Resolution where
  | passThrough (sel : String)
  | resolved (sel : String)
  | staleError (n : Int)
  | invalidFormat (sel : String)
deriving DecidableEq, Repr

/-- The resolution block of `TerminalBrowserServer.browser_click` (the
same code is duplicated verbatim in `browser_type`): a selector starting
with `element:` has its second `:`-field parsed with `int`; a parse
failure is the invalid-format error, an in-range index `n` is replaced by
`last_elements[n-1]['selector']`, anything else is the
"take a screenshot first" stale error; all other selectors pass through
unchanged. -/
def resolveElementRef (selector : String) (last_elements : List Elem) : Resolution :=
  if beginsWith "element:".data selector.data then
    match pyInt (secondField selector) with
    | none => .invalidFormat selector
    | some n =>
      if h : 0 < n ∧ n ≤ last_elements.length then
        .resolved (last_elements.get ⟨n.toNat - 1, by omega⟩).selector
      else .staleError n
  else .passThrough selector

/-- Resolution step of `TerminalBrowserServer.browser_click`. -/
def browser_click_resolve (selector : String) (last_elements : List Elem) : Resolution :=
  resolveElementRef selector last_elements

/-- Resolution step of `TerminalBrowserServer.browser_type` (the source
duplicates the block of `browser_click`). -/
def browser_type_resolve (selector : String) (last_elements : List Elem) : Resolution :=
  resolveElementRef selector last_elements

/-- Written from the spec's words, for comparison with the source: the
strings of "the literal form `element:<positive integer>`". -/
def isElementRefLiteral (s : String) : Bool :=
  beginsWith "element:".data s.data &&
    (let t := (s.data.drop 8)
     t.length > 0 && t.all Char.isDigit && (pyDigits t).getD 0 > 0)

/-! ## Server state and `browser_screenshot` -/

/-- The part of `TerminalBrowserServer` state the browser tools touch:
`self.last_elements`. -/
structure ServerState where
  last_elements : List Elem
deriving DecidableEq, Repr

/-- Element list returned by `ChromeDevTools.screenshot`: the located
elements when `with_overlays` is set, else the initial `[]`. -/
def cdp_screenshot_elements (with_overlays : Bool) (located : List Elem) : List Elem :=
  if with_overlays then located else []

/-- State effect of `TerminalBrowserServer.browser_screenshot`:
`capture = none` models any exception inside the `try` (state untouched,
error dict returned); on success `self.last_elements` is replaced by
exactly the element list of this capture. -/
def browser_screenshot_step (st : ServerState) (with_overlays : Bool)
    (capture : Option (List Elem)) : ServerState × Bool :=
  match capture with
  | none => (st, false)
  | some located => (⟨cdp_screenshot_elements with_overlays located⟩, true)

/-! ## Click geometry and key dispatch -/

/-- The 8-number content quad of `DOM.getBoxModel`
(`box[0], box[1], ..., box[7]` in the source). -/
structure Quad where
  x1 : ℚ
  y1 : ℚ
  x2 : ℚ
  y2 : ℚ
  x3 : ℚ
  y3 : ℚ
  x4 : ℚ
  y4 : ℚ
deriving DecidableEq, Repr

/-- The click point of `ChromeDevTools.click`:
`x = (box[0] + box[2]) / 2`, `y = (box[1] + box[5]) / 2`. -/
def clickPoint (box : Quad) : ℚ × ℚ :=
  ((box.x1 + box.x2) / 2, (box.y1 + box.y3) / 2)

/-- Minimum of four rationals. -/
def min4 (a b c d : ℚ) : ℚ := min a (min b (min c d))

/-- Maximum of four rationals. -/
def max4 (a b c d : ℚ) : ℚ := max a (max b (max c d))

/-- Written from the spec's words, for comparison with the source: the
"average of min/max x, min/max y" centre of the content quad. -/
def specClickPoint (box : Quad) : ℚ × ℚ :=
  ((min4 box.x1 box.x2 box.x3 box.x4 + max4 box.x1 box.x2 box.x3 box.x4) / 2,
   (min4 box.y1 box.y2 box.y3 box.y4 + max4 box.y1 box.y2 box.y3 box.y4) / 2)

/-- Commands the action primitives issue through `send_command`, after
the node has been resolved. -/
inductive Cmd where
  | getBoxModel (node_id : Nat)
  | mousePressed (x y : ℚ)
  | mouseReleased (x y : ℚ)
  | focus (node_id : Nat)
  | keyChar (c : Char)
deriving DecidableEq, Repr

/-- Python truthiness of the `node_id` that `query_selector` returns
(`if not node_id` treats both `None` and `0` as "not found"). -/
def pyTruthy : Option Nat → Bool
  | none => false
  | some 0 => false
  | some (_ + 1) => true

/-- Command trace of `ChromeDevTools.click` after `query_selector`
returned `node_id`: on a truthy node id, fetch the box model then
dispatch `mousePressed` and `mouseReleased` at the computed point; the
`Bool` is the `success` field of the returned dict. -/
def click_run (node_id : Option Nat) (box : Quad) : List Cmd × Bool :=
  match node_id with
  | none => ([], false)
  | some 0 => ([], false)
  | some (n + 1) =>
    let p := clickPoint box
    ([Cmd.getBoxModel (n + 1), Cmd.mousePressed p.1 p.2, Cmd.mouseReleased p.1 p.2], true)

/-- Command trace of `ChromeDevTools.type_text` after `query_selector`
returned `node_id`: on a truthy node id, `DOM.focus` then one
`Input.dispatchKeyEvent` per character of `text`, in order. -/
def type_text_run (node_id : Option Nat) (text : String) : List Cmd × Bool :=
  match node_id with
  | none => ([], false)
  | some 0 => ([], false)
  | some (n + 1) => (Cmd.focus (n + 1) :: text.data.map Cmd.keyChar, true)

/-- Extract the character of a key-dispatch command. -/
def keyOf : Cmd → Option Char
  | .keyChar c => some c
  | _ => none

/-! ## Overlay renderer -/

/-- Encoded raster formats at the image boundary. -/
inductive ImgFormat where
  | png
  | jpeg
  | other (name : String)
deriving DecidableEq, Repr

/-- Symbolic drawing primitives of `_add_overlays` (`ImageDraw.ellipse`
with its bounding box, `ImageDraw.text` with its anchor and label). -/
inductive DrawOp where
  | ellipse (x0 y0 x1 y1 : Int)
  | drawnText (x y : Int) (label : String)
deriving DecidableEq, Repr

/-- An encoded image buffer: its format, pixel dimensions and (symbolic)
pixel content. -/
structure Encoded where
  fmt : ImgFormat
  width : Nat
  height : Nat
  content : List DrawOp
deriving DecidableEq, Repr

/-- A decoded `PIL.Image`: dimensions and symbolic content. -/
structure PILImage where
  width : Nat
  height : Nat
  content : List DrawOp
deriving DecidableEq, Repr

/-- `Image.open` on an encoded buffer. -/
def image_open (e : Encoded) : PILImage := ⟨e.width, e.height, e.content⟩

/-- `image.save(output, format=fmt)`: re-encode with the given format,
keeping dimensions and content. -/
def image_save (img : PILImage) (fmt : ImgFormat) : Encoded :=
  ⟨fmt, img.width, img.height, img.content⟩

/-- `draw.ellipse([(x0, y0), (x1, y1)], ...)`. -/
def draw_ellipse (img : PILImage) (x0 y0 x1 y1 : Int) : PILImage :=
  { img with content := img.content ++ [.ellipse x0 y0 x1 y1] }

/-- `draw.text((x, y), label, ...)`. -/
def draw_text (img : PILImage) (x y : Int) (label : String) : PILImage :=
  { img with content := img.content ++ [.drawnText x y label] }

/-- Python `int()` on a float: truncation toward zero (`Int` division of
numerator by denominator is exactly that). -/
def pyTrunc (q : ℚ) : Int := Int.tdiv q.num (q.den : Int)

/-- Python `enumerate(elements, k)`. -/
def enumerate1 : Nat → List Elem → List (Nat × Elem)
  | _, [] => []
  | k, el :: rest => (k, el) :: enumerate1 (k + 1) rest

/-- One iteration of the overlay loop of `_add_overlays`, for element
`el` with 1-based index `idx`: the blue circle of radius 15 around the
element's truncated centre, then the index label centred with the font
metrics `tw`/`th` (the `textbbox` width and height, kept abstract). -/
def overlay_one (tw th : String → Nat) (img : PILImage) (idx : Nat) (el : Elem) : PILImage :=
  let x := pyTrunc el.x
  let y := pyTrunc el.y
  let img := draw_ellipse img (x - 15) (y - 15) (x + 15) (y + 15)
  let label := toString idx
  draw_text img (x - (tw label : Int) / 2) (y - (th label : Int) / 2) label

/-- `ChromeDevTools._add_overlays`: decode the frame, draw a numbered
circle per element in registry order (numbering from 1), then re-encode
with `format='PNG'` into a fresh buffer. -/
def add_overlays (tw th : String → Nat) (frame : Encoded) (elements : List Elem) : Encoded :=
  let img := image_open frame
  let img := (enumerate1 1 elements).foldl (fun im p => overlay_one tw th im p.1 p.2) img
  image_save img ImgFormat.png

/-- The drawing operations the overlay loop appends, starting at index
`k` (specification helper for `add_overlays`). -/
def overlayOps (tw th : String → Nat) : Nat → List Elem → List DrawOp
  | _, [] => []
  | k, el :: rest =>
    let x := pyTrunc el.x
    let y := pyTrunc el.y
    DrawOp.ellipse (x - 15) (y - 15) (x + 15) (y + 15) ::
      DrawOp.drawnText (x - (tw (toString k) : Int) / 2) (y - (th (toString k) : Int) / 2)
        (toString k) ::
      overlayOps tw th (k + 1) rest

/-- The text labels among a list of drawing operations. -/
def labelsOf (ops : List DrawOp) : List String :=
  ops.filterMap (fun op => match op with | .drawnText _ _ s => some s | _ => none)

/-! ## Concrete fixtures -/

/-- A concrete registry entry (a button). -/
def elemBtn : Elem := ⟨"button", none, "OK", 1, 2, 10, 5, "button#ok"⟩

/-- A second concrete registry entry (a link). -/
def elemLink : Elem := ⟨"a", none, "Docs", 7, 8, 10, 5, "a.nav"⟩

/-- A rotated content quad: its corner pairs are not axis-aligned, so
corner averages and min/max averages disagree. -/
def rotQuad : Quad := ⟨10, 0, 5, 10, 0, 20, 3, 5⟩

/-- A degenerate axis-aligned content quad (all corners equal). -/
def ptQuad : Quad := ⟨5, 3, 5, 3, 5, 3, 5, 3⟩

/-! ## Dictionary lemmas -/

theorem dlookup_dinsert (k k' : Nat) (v : Frame) (d : List (Nat × Frame)) :
    dlookup k (dinsert k' v d) = if k' = k then some v else dlookup k d := by
  induction d with
  | nil => simp [dinsert, dlookup]
  | cons q rest ih =>
    obtain ⟨a, b⟩ := q
    simp only [dinsert]
    by_cases hak : a = k'
    · subst hak
      simp only [if_pos rfl, dlookup]
      by_cases hkk : a = k <;> simp [hkk]
    · simp only [if_neg hak, dlookup]
      by_cases hakk : a = k
      · subst hakk
        have hka : ¬ k' = a := fun hh => hak hh.symm
        simp [hka]
      · simp [hakk, ih]

theorem mem_dinsert {p : Nat × Frame} {k : Nat} {v : Frame} {d : List (Nat × Frame)}
    (h : p ∈ dinsert k v d) : p = (k, v) ∨ p ∈ d := by
  induction d with
  | nil => simpa [dinsert] using h
  | cons q rest ih =>
    obtain ⟨a, b⟩ := q
    simp only [dinsert] at h
    by_cases hak : a = k
    · simp only [if_pos hak] at h
      rcases List.mem_cons.mp h with rfl | h
      · exact Or.inl rfl
      · exact Or.inr (List.mem_cons_of_mem _ h)
    · simp only [if_neg hak] at h
      rcases List.mem_cons.mp h with rfl | h
      · exact Or.inr (List.mem_cons_self _ _)
      · rcases ih h with h' | h'
        · exact Or.inl h'
        · exact Or.inr (List.mem_cons_of_mem _ h')

theorem mem_dpop {p : Nat × Frame} {k : Nat} {d : List (Nat × Frame)}
    (h : p ∈ dpop k d) : p ∈ d := by
  induction d with
  | nil => simpa [dpop] using h
  | cons q rest ih =>
    obtain ⟨a, b⟩ := q
    simp only [dpop] at h
    by_cases hak : a = k
    · simp only [if_pos hak] at h
      exact List.mem_cons_of_mem _ h
    · simp only [if_neg hak] at h
      rcases List.mem_cons.mp h with rfl | h
      · exact List.mem_cons_self _ _
      · exact List.mem_cons_of_mem _ (ih h)

theorem dlookup_mem {k : Nat} {f : Frame} {d : List (Nat × Frame)}
    (h : dlookup k d = some f) : (k, f) ∈ d := by
  induction d with
  | nil => simp [dlookup] at h
  | cons q rest ih =>
    obtain ⟨a, b⟩ := q
    simp only [dlookup] at h
    by_cases hak : a = k
    · subst hak
      simp only [if_pos rfl] at h
      obtain rfl := Option.some.inj h
      exact List.mem_cons_self _ _
    · simp only [if_neg hak] at h
      exact List.mem_cons_of_mem _ (ih h)

/-! ## Correlator lemmas -/

theorem listenStep_message_id (s : CDP) (f : Frame) :
    (listenStep s f).message_id = s.message_id := by
  cases hf : f.idField <;> simp [listenStep, hf]

theorem listenMany_message_id (s : CDP) (fs : List Frame) :
    (listenMany s fs).message_id = s.message_id := by
  induction fs generalizing s with
  | nil => rfl
  | cons f rest ih => simpa [listenMany, listenStep_message_id] using
      (ih (listenStep s f)).trans (listenStep_message_id s f)

theorem waitLoop_message_id (m fuel : Nat) (batches : List (List Frame)) (s : CDP) :
    (waitLoop m fuel batches s).2.message_id = s.message_id := by
  induction fuel generalizing batches s with
  | zero => rfl
  | succ n ih =>
    simp only [waitLoop]
    cases hl : dlookup m (listenMany s (batches.headD [])).responses with
    | some r => simpa using listenMany_message_id s (batches.headD [])
    | none => simpa using (ih batches.tail _).trans (listenMany_message_id s (batches.headD []))

theorem send_command_mid (s : CDP) (bs : List (List Frame)) :
    (send_command s bs).mid = s.message_id + 1 := rfl

theorem send_command_message_id (s : CDP) (bs : List (List Frame)) :
    (send_command s bs).state.message_id = s.message_id + 1 := by
  simpa [send_command] using waitLoop_message_id (s.message_id + 1) 100 bs _

theorem wellKeyed_listenStep {s : CDP} (f : Frame) (h : WellKeyed s) :
    WellKeyed (listenStep s f) := by
  cases hf : f.idField with
  | none => intro p hp; exact h p (by simpa [listenStep, hf] using hp)
  | some i =>
    intro p hp
    simp only [listenStep, hf] at hp
    rcases mem_dinsert hp with rfl | hp
    · simpa using hf
    · exact h p hp

theorem wellKeyed_listenMany {s : CDP} (fs : List Frame) (h : WellKeyed s) :
    WellKeyed (listenMany s fs) := by
  induction fs generalizing s with
  | nil => exact h
  | cons f rest ih => exact ih (wellKeyed_listenStep f h)

theorem waitLoop_spec (m fuel : Nat) (batches : List (List Frame)) {s : CDP}
    (h : WellKeyed s) :
    WellKeyed (waitLoop m fuel batches s).2 ∧
      ∀ r, (waitLoop m fuel batches s).1 = some r → r.idField = some m := by
  induction fuel generalizing batches s with
  | zero => exact ⟨h, by simp [waitLoop]⟩
  | succ n ih =>
    have h1 : WellKeyed (listenMany s (batches.headD [])) := wellKeyed_listenMany _ h
    simp only [waitLoop]
    cases hl : dlookup m (listenMany s (batches.headD [])).responses with
    | some r0 =>
      refine ⟨?_, ?_⟩
      · intro p hp
        exact h1 p (mem_dpop (by simpa using hp))
      · intro r hr
        simp at hr
        subst hr
        exact h1 _ (dlookup_mem hl)
    | none => simpa using ih batches.tail h1

theorem send_command_wellKeyed {s : CDP} (bs : List (List Frame)) (h : WellKeyed s) :
    WellKeyed (send_command s bs).state := by
  have h' : WellKeyed ({ s with message_id := s.message_id + 1 } : CDP) := h
  exact (waitLoop_spec (s.message_id + 1) 100 bs h').1

theorem send_command_reply_id {s : CDP} {bs : List (List Frame)} {r : Frame}
    (h : WellKeyed s) (hr : (send_command s bs).reply = some r) :
    r.idField = some (s.message_id + 1) := by
  have h' : WellKeyed ({ s with message_id := s.message_id + 1 } : CDP) := h
  exact (waitLoop_spec (s.message_id + 1) 100 bs h').2 r hr

theorem runOps_mid_gt (ops : List Op) (s : CDP) :
    ∀ rec ∈ (runOps s ops).2, s.message_id < rec.mid := by
  induction ops generalizing s with
  | nil => simp [runOps]
  | cons op rest ih =>
    cases op with
    | recv f =>
      intro rec hrec
      have := ih (listenStep s f) rec (by simpa [runOps] using hrec)
      simpa [listenStep_message_id] using this
    | call bs =>
      intro rec hrec
      simp only [runOps, List.mem_cons] at hrec
      rcases hrec with rfl | hrec
      · simp [send_command_mid]
      · have := ih (send_command s bs).state rec hrec
        have hm := send_command_message_id s bs
        omega

theorem runOps_wellKeyed_replies (ops : List Op) {s : CDP} (h : WellKeyed s) :
    ∀ rec ∈ (runOps s ops).2, ∀ r, rec.reply = some r → r.idField = some rec.mid := by
  induction ops generalizing s with
  | nil => simp [runOps]
  | cons op rest ih =>
    cases op with
    | recv f =>
      intro rec hrec
      exact ih (wellKeyed_listenStep f h) rec (by simpa [runOps] using hrec)
    | call bs =>
      intro rec hrec
      simp only [runOps, List.mem_cons] at hrec
      rcases hrec with rfl | hrec
      · intro r hr
        simpa [send_command_mid] using send_command_reply_id h hr
      · exact ih (send_command_wellKeyed bs h) rec hrec

theorem waitLoop_hit (m fuel : Nat) (b : List (List Frame)) (s : CDP) (r : Frame)
    (h : dlookup m (listenMany s (b.headD [])).responses = some r) :
    waitLoop m (fuel + 1) b s =
      (some r, { listenMany s (b.headD []) with
        responses := dpop m (listenMany s (b.headD [])).responses }) := by
  have h' : dlookup m (listenMany s (b.head?.getD [])).responses = some r := by
    simpa using h
  simp [waitLoop, h']

theorem send_command_immediate (s : CDP) (r : Frame)
    (h : dlookup (s.message_id + 1) s.responses = some r) :
    (send_command s []).reply = some r := by
  have h100 : (100 : Nat) = 99 + 1 := rfl
  simp only [send_command, h100]
  rw [waitLoop_hit (s.message_id + 1) 99 [] _ r (by simpa [listenMany] using h)]

/-! ## C1 -/

/-- C1, counterexample: an inbound reply whose id (1) matches no pending
request is retained in `responses` by the receive loop, and the next
`send_command` — which allocates that same id — receives it as its reply,
contradicting "never retained … never delivered to any waiter". -/
theorem C1_counterexample :
    dlookup 1 (listenStep initCDP ⟨some 1, 7⟩).responses = some ⟨some 1, 7⟩ ∧
    (send_command (listenStep initCDP ⟨some 1, 7⟩) []).reply = some ⟨some 1, 7⟩ := by
  decide

/-- C1, amended: an inbound reply whose id matches no currently pending
request is retained in the `responses` map rather than dropped (the
receive loop itself never fails); it is never handed to a waiter on a
different id, but when its id is one the client has not yet allocated,
the next `send_command` — which allocates exactly that id — receives the
stale reply as its own. -/
theorem C1_unknown_reply_retained (s : CDP) (f : Frame)
    (hid : f.idField = some (s.message_id + 1)) :
    dlookup (s.message_id + 1) (listenStep s f).responses = some f ∧
    (send_command (listenStep s f) []).reply = some f := by
  have hret : dlookup (s.message_id + 1) (listenStep s f).responses = some f := by
    simp [listenStep, hid, dlookup_dinsert]
  refine ⟨hret, ?_⟩
  have hmid : (listenStep s f).message_id = s.message_id := listenStep_message_id s f
  exact send_command_immediate (listenStep s f) f (by rw [hmid]; exact hret)

/-- C1, witness for `C1_unknown_reply_retained` at the concrete unknown
reply frame with id 1 against a fresh connection. -/
theorem C1_unknown_reply_retained_witness :
    dlookup 1 (listenStep initCDP ⟨some 1, 9⟩).responses = some ⟨some 1, 9⟩ ∧
    (send_command (listenStep initCDP ⟨some 1, 9⟩) []).reply = some ⟨some 1, 9⟩ :=
  C1_unknown_reply_retained initCDP ⟨some 1, 9⟩ rfl

/-! ## C2 -/

/-- C2, counterexample: a `send_command` on a fresh connection that
receives nothing times out (`reply = none`), and the late reply for its
id 1 that arrives afterwards is stored in `responses` by the receive
loop — not dropped as the claim states. -/
theorem C2_counterexample :
    (send_command initCDP []).reply = none ∧
    dlookup 1 (listenStep (send_command initCDP []).state ⟨some 1, 42⟩).responses =
      some ⟨some 1, 42⟩ := by
  decide

/-- C2, amended: a call that times out deregisters nothing, because the
client keeps no per-request state before the reply arrives; a reply for
its id arriving after the timeout is retained in the `responses` map
rather than dropped, but it is delivered to no waiter — every later call
allocates a strictly larger id and only ever receives a frame carrying
its own id. -/
theorem C2_timeout_late_reply (s : CDP) (bs : List (List Frame)) (late : Frame)
    (hwk : WellKeyed s)
    (_hto : (send_command s bs).reply = none)
    (hlate : late.idField = some ((send_command s bs).mid)) (ops : List Op) :
    dlookup ((send_command s bs).mid)
        (listenStep (send_command s bs).state late).responses = some late ∧
    ∀ rec ∈ (runOps (listenStep (send_command s bs).state late) ops).2,
      rec.reply ≠ some late := by
  have hmid : (send_command s bs).mid = s.message_id + 1 := rfl
  constructor
  · rw [hmid] at hlate ⊢
    simp [listenStep, hlate, dlookup_dinsert]
  · intro rec hrec hr
    have hwk1 : WellKeyed (listenStep (send_command s bs).state late) :=
      wellKeyed_listenStep late (send_command_wellKeyed bs hwk)
    have hridf : late.idField = some rec.mid :=
      runOps_wellKeyed_replies ops hwk1 rec hrec late hr
    have hgt : (listenStep (send_command s bs).state late).message_id < rec.mid :=
      runOps_mid_gt ops _ rec hrec
    have hms : (listenStep (send_command s bs).state late).message_id = s.message_id + 1 := by
      rw [listenStep_message_id]
      exact send_command_message_id s bs
    rw [hlate, hmid] at hridf
    simp at hridf
    omega

/-- C2, witness for `C2_timeout_late_reply`: a timed-out call on a fresh
connection, a late reply with its id 1 arriving afterwards, and one
subsequent call. -/
theorem C2_timeout_late_reply_witness :
    dlookup 1 (listenStep (send_command initCDP []).state ⟨some 1, 42⟩).responses =
      some ⟨some 1, 42⟩ ∧
    ∀ rec ∈ (runOps (listenStep (send_command initCDP []).state ⟨some 1, 42⟩)
        [Op.call []]).2, rec.reply ≠ some ⟨some 1, 42⟩ :=
  C2_timeout_late_reply initCDP [] ⟨some 1, 42⟩
    (by intro p hp; simp [initCDP] at hp) (by decide) rfl [Op.call []]

/-! ## C4 -/

/-- C4: `navigate` completes as soon as any reply frame for its second
request id arrives — the string `Page.loadEventFired` is sent as a
request, not awaited as an event — so on the trace where the remote
answers both requests and emits no event at all (which is what Chrome
does: an immediate method-not-found error reply), `navigate` returns with
the Event Log still empty, refuting "completion happens-after the load
event's log append". -/
theorem C4_navigate_no_load_event :
    navigate initCDP [[⟨some 1, 10⟩]] [[⟨some 2, 11⟩]] =
      (some ⟨some 1, 10⟩, ⟨2, [], []⟩) := by
  decide

/-! ## C9 -/

/-- C9: over any interleaving of receive steps and calls on one
connection, the ids allocated by successive `send_command`s are strictly
increasing in issue order — hence pairwise distinct and never reused,
timed-out requests included. -/
theorem C9_call_ids_strictly_increasing (s : CDP) (ops : List Op) :
    ((runOps s ops).2.map CallRec.mid).Pairwise (· < ·) := by
  induction ops generalizing s with
  | nil => simp [runOps]
  | cons op rest ih =>
    cases op with
    | recv f => simpa [runOps] using ih (listenStep s f)
    | call bs =>
      simp only [runOps, List.map_cons, List.pairwise_cons]
      refine ⟨?_, ih _⟩
      intro b hb
      simp only [List.mem_map] at hb
      obtain ⟨rec, hrec, rfl⟩ := hb
      have h1 := runOps_mid_gt rest (send_command s bs).state rec hrec
      have h2 := send_command_message_id s bs
      have h3 : (send_command s bs).mid = s.message_id + 1 := rfl
      omega

/-! ## C3 -/

/-- C3: on the conformant CDP reply for `Runtime.evaluate` of `1+1`
(value nested at `result.result.value`), `execute_script` returns the
success dict with value `None` — not `2` — because it reads
`result['result'].get('value')`, one nesting level short; its exception
branch indexes the very same object correctly, returning the
`ScriptError` text exactly when `exceptionDetails` is present. -/
theorem C3_evaluate_value_lost :
    execute_script frame_one_plus_one = some (.success .null) ∧
    execute_script frame_one_plus_one ≠ some (.success (.jint 2)) ∧
    execute_script frame_with_exception = some (.error (.jstr "Uncaught")) := by
  refine ⟨rfl, ?_, rfl⟩
  intro h
  rw [show execute_script frame_one_plus_one = some (.success .null) from rfl] at h
  injection h with h1
  injection h1 with h2
  exact JVal.noConfusion h2

/-! ## C5 -/

/-- C5, counterexample: `element:1:2` is not of the literal form
`element:<positive integer>`, yet it is not passed through as a
structural selector — `int("element:1:2".split(":")[1])` parses the
middle field, so it resolves as numeric reference 1; and `element:x`
produces the invalid-format error, a third outcome the claim does not
allow. -/
theorem C5_counterexample :
    isElementRefLiteral "element:1:2" = false ∧
    browser_click_resolve "element:1:2" [elemBtn] = .resolved "button#ok" ∧
    browser_click_resolve "element:1:2" [elemBtn] ≠ .passThrough "element:1:2" ∧
    browser_click_resolve "element:x" [elemBtn] = .invalidFormat "element:x" := by
  decide

/-- C5, amended: every selector starting with `element:` is treated as a
numeric-reference attempt — the text between the first two colons is
parsed with Python `int`; a parse failure yields the invalid-format
error, a parsed `n` within `1..|registry|` resolves to the `n`-th
entry's selector, and any other parsed `n` (zero, negative, or out of
range, in particular against the initial empty registry) yields the
stale-reference error; only selectors not starting with `element:` pass
through unchanged.  `browser_type` resolves identically. -/
theorem C5_resolution (s : String) (reg : List Elem) (n : Int)
    (hpre : beginsWith "element:".data s.data = true)
    (hn : pyInt (secondField s) = some n) :
    (∀ h : 0 < n ∧ n ≤ reg.length,
      browser_click_resolve s reg = .resolved (reg.get ⟨n.toNat - 1, by omega⟩).selector) ∧
    (¬ (0 < n ∧ n ≤ reg.length) → browser_click_resolve s reg = .staleError n) ∧
    browser_type_resolve s reg = browser_click_resolve s reg ∧
    (∀ t : String, beginsWith "element:".data t.data = false →
      browser_click_resolve t reg = .passThrough t) ∧
    (∀ t : String, beginsWith "element:".data t.data = true →
      pyInt (secondField t) = none → browser_click_resolve t reg = .invalidFormat t) := by
  refine ⟨?_, ?_, rfl, ?_, ?_⟩
  · intro h
    simp only [browser_click_resolve, resolveElementRef, hpre, if_true, hn]
    rw [dif_pos h]
  · intro h
    simp only [browser_click_resolve, resolveElementRef, hpre, if_true, hn]
    rw [dif_neg h]
  · intro t ht
    simp [browser_click_resolve, resolveElementRef, ht]
  · intro t ht hnone
    simp [browser_click_resolve, resolveElementRef, ht, hnone]

/-- C5, witness for `C5_resolution`: `element:2` resolves to the second
entry's selector against a registry of size 2 and fails with the stale
error against a registry of size 1, exactly the spec's concrete test. -/
theorem C5_resolution_witness :
    beginsWith "element:".data "element:2".data = true ∧
    pyInt (secondField "element:2") = some 2 ∧
    browser_click_resolve "element:2" [elemBtn, elemLink] = .resolved "a.nav" ∧
    browser_click_resolve "element:2" [elemBtn] = .staleError 2 :=
  ⟨rfl, by decide,
    (C5_resolution "element:2" [elemBtn, elemLink] 2 (by decide) (by decide)).1 (by decide),
    (C5_resolution "element:2" [elemBtn] 2 (by decide) (by decide)).2.1 (by decide)⟩

/-! ## C10 -/

/-- With an empty registry every parsed numeric reference is stale. -/
theorem resolve_on_empty (s : String) (n : Int)
    (hpre : beginsWith "element:".data s.data = true)
    (hn : pyInt (secondField s) = some n) :
    resolveElementRef s [] = .staleError n := by
  simp only [resolveElementRef, hpre, if_true, hn]
  rw [dif_neg (by rintro ⟨h1, h2⟩; simp only [List.length_nil] at h2; omega)]

/-- C10: a successful `browser_screenshot` replaces `last_elements` with
exactly this capture's element list; with `with_overlays = false` that
list is empty, after which every `browser_click` or `browser_type`
numeric reference `element:N` fails with the stale-reference error until
a screenshot with overlays replaces the registry again. -/
theorem C10_no_overlay_screenshot_stales (st : ServerState) (located : List Elem)
    (s : String) (n : Int)
    (hpre : beginsWith "element:".data s.data = true)
    (hn : pyInt (secondField s) = some n) :
    (browser_screenshot_step st false (some located)).1.last_elements = [] ∧
    (browser_screenshot_step st false (some located)).2 = true ∧
    browser_click_resolve s (browser_screenshot_step st false (some located)).1.last_elements =
      .staleError n ∧
    browser_type_resolve s (browser_screenshot_step st false (some located)).1.last_elements =
      .staleError n ∧
    (∀ (wo : Bool) (loc : List Elem),
      ((browser_screenshot_step st wo (some loc)).1).last_elements =
        cdp_screenshot_elements wo loc) := by
  refine ⟨rfl, rfl, ?_, ?_, fun wo loc => rfl⟩
  · exact resolve_on_empty s n hpre hn
  · exact resolve_on_empty s n hpre hn

/-- C10, witness for `C10_no_overlay_screenshot_stales` at a concrete
state holding a one-element registry, a capture that located two
elements, and the numeric reference `element:1`. -/
theorem C10_no_overlay_screenshot_stales_witness :
    (browser_screenshot_step ⟨[elemBtn]⟩ false (some [elemBtn, elemLink])).1.last_elements = [] ∧
    (browser_screenshot_step ⟨[elemBtn]⟩ false (some [elemBtn, elemLink])).2 = true ∧
    browser_click_resolve "element:1"
      (browser_screenshot_step ⟨[elemBtn]⟩ false (some [elemBtn, elemLink])).1.last_elements =
      .staleError 1 ∧
    browser_type_resolve "element:1"
      (browser_screenshot_step ⟨[elemBtn]⟩ false (some [elemBtn, elemLink])).1.last_elements =
      .staleError 1 ∧
    (∀ (wo : Bool) (loc : List Elem),
      ((browser_screenshot_step ⟨[elemBtn]⟩ wo (some loc)).1).last_elements =
        cdp_screenshot_elements wo loc) :=
  C10_no_overlay_screenshot_stales ⟨[elemBtn]⟩ [elemBtn, elemLink] "element:1" 1
    (by decide) (by decide)

/-! ## C6 -/

/-- C6, counterexample: on a rotated content quad the source's click
point — corner averages `((box[0]+box[2])/2, (box[1]+box[5])/2)` — is
not the average of the quad's min/max coordinates, and the press/release
pair is dispatched at the corner-average point, not at the min/max
centre the claim requires. -/
theorem C6_counterexample :
    clickPoint rotQuad ≠ specClickPoint rotQuad ∧
    (click_run (some 1) rotQuad).1 =
      [Cmd.getBoxModel 1, Cmd.mousePressed ((15 : ℚ)/2) 10,
       Cmd.mouseReleased ((15 : ℚ)/2) 10] := by
  have h1 : clickPoint rotQuad = ((15 : ℚ)/2, 10) := by
    norm_num [clickPoint, rotQuad]
  have h2 : specClickPoint rotQuad = ((5 : ℚ), 10) := by
    norm_num [specClickPoint, min4, max4, rotQuad, min_def, max_def]
  refine ⟨?_, ?_⟩
  · rw [h1, h2]
    intro h
    have hfst := congrArg Prod.fst h
    norm_num at hfst
  · show (Cmd.getBoxModel 1 :: Cmd.mousePressed (clickPoint rotQuad).1 (clickPoint rotQuad).2 ::
      [Cmd.mouseReleased (clickPoint rotQuad).1 (clickPoint rotQuad).2]) = _
    rw [h1]

/-- C6, amended: `click` computes its point from the quad's corners 1
and 2 for x and corners 1 and 3 for y — `((x1+x2)/2, (y1+y3)/2)` — which
coincides with the average of the quad's min/max coordinates exactly on
axis-aligned rectangular quads; it then dispatches a mouse-press
followed by a mouse-release at exactly that point. -/
theorem C6_click_point (nid : Nat) (box : Quad)
    (h41 : box.x4 = box.x1) (h32 : box.x3 = box.x2) (h21 : box.y2 = box.y1)
    (h43 : box.y4 = box.y3) (hx : box.x1 ≤ box.x2) (hy : box.y1 ≤ box.y3) :
    clickPoint box = ((box.x1 + box.x2) / 2, (box.y1 + box.y3) / 2) ∧
    clickPoint box = specClickPoint box ∧
    (click_run (some (nid + 1)) box).1 =
      [Cmd.getBoxModel (nid + 1),
       Cmd.mousePressed (clickPoint box).1 (clickPoint box).2,
       Cmd.mouseReleased (clickPoint box).1 (clickPoint box).2] ∧
    (click_run (some (nid + 1)) box).2 = true := by
  refine ⟨rfl, ?_, rfl, rfl⟩
  have hminx : min4 box.x1 box.x2 box.x3 box.x4 = box.x1 := by
    simp only [min4, h41, h32, min_def]
    split_ifs <;> linarith
  have hmaxx : max4 box.x1 box.x2 box.x3 box.x4 = box.x2 := by
    simp only [max4, h41, h32, max_def]
    split_ifs <;> linarith
  have hminy : min4 box.y1 box.y2 box.y3 box.y4 = box.y1 := by
    simp only [min4, h21, h43, min_def]
    split_ifs <;> linarith
  have hmaxy : max4 box.y1 box.y2 box.y3 box.y4 = box.y3 := by
    simp only [max4, h21, h43, max_def]
    split_ifs <;> linarith
  simp only [specClickPoint, clickPoint, hminx, hmaxx, hminy, hmaxy]

/-- C6, witness for `C6_click_point` at a concrete axis-aligned quad. -/
theorem C6_click_point_witness :
    clickPoint ptQuad = ((ptQuad.x1 + ptQuad.x2) / 2, (ptQuad.y1 + ptQuad.y3) / 2) ∧
    clickPoint ptQuad = specClickPoint ptQuad ∧
    (click_run (some 1) ptQuad).1 =
      [Cmd.getBoxModel 1,
       Cmd.mousePressed (clickPoint ptQuad).1 (clickPoint ptQuad).2,
       Cmd.mouseReleased (clickPoint ptQuad).1 (clickPoint ptQuad).2] ∧
    (click_run (some 1) ptQuad).2 = true :=
  C6_click_point 0 ptQuad rfl rfl rfl rfl (le_refl _) (le_refl _)

/-! ## C7 -/

/-- Key events extracted from a pure key-event trace. -/
theorem filterMap_keyOf_map (cs : List Char) :
    (cs.map Cmd.keyChar).filterMap keyOf = cs := by
  induction cs with
  | nil => rfl
  | cons c rest ih => simp [keyOf, ih]

/-- C7: on a resolvable (truthy) node id, `type_text` issues `DOM.focus`
first and then exactly one key-dispatch per character of the text, in
the text's order. -/
theorem C7_type_text (node : Option Nat) (text : String)
    (h : pyTruthy node = true) :
    ∃ n, node = some (n + 1) ∧
      type_text_run node text = (Cmd.focus (n + 1) :: text.data.map Cmd.keyChar, true) ∧
      (type_text_run node text).1.filterMap keyOf = text.data ∧
      (type_text_run node text).1.head? = some (Cmd.focus (n + 1)) := by
  match node with
  | none => simp [pyTruthy] at h
  | some 0 => simp [pyTruthy] at h
  | some (n + 1) =>
    refine ⟨n, rfl, rfl, ?_, rfl⟩
    have h1 : (type_text_run (some (n + 1)) text).1 =
        Cmd.focus (n + 1) :: text.data.map Cmd.keyChar := rfl
    rw [h1, List.filterMap_cons]
    rw [show keyOf (Cmd.focus (n + 1)) = none from rfl]
    exact filterMap_keyOf_map text.data

/-- C7, witness for `C7_type_text`: typing `"ab"` into node 3 issues
exactly the two key dispatches `'a'` then `'b'`, after the focus. -/
theorem C7_type_text_witness :
    pyTruthy (some 3) = true ∧
    "ab".data = ['a', 'b'] ∧
    (∃ n, some 3 = some (n + 1) ∧
      type_text_run (some 3) "ab" = (Cmd.focus (n + 1) :: "ab".data.map Cmd.keyChar, true) ∧
      (type_text_run (some 3) "ab").1.filterMap keyOf = "ab".data ∧
      (type_text_run (some 3) "ab").1.head? = some (Cmd.focus (n + 1))) :=
  ⟨rfl, rfl, C7_type_text (some 3) "ab" rfl⟩

/-! ## C8 -/

/-- The overlay fold only appends drawing operations. -/
theorem overlay_foldl_content (tw th : String → Nat) (els : List Elem) :
    ∀ (k : Nat) (img : PILImage),
      ((enumerate1 k els).foldl (fun im p => overlay_one tw th im p.1 p.2) img).content =
        img.content ++ overlayOps tw th k els := by
  induction els with
  | nil => intro k img; simp [enumerate1, overlayOps]
  | cons el rest ih =>
    intro k img
    simp only [enumerate1, List.foldl_cons]
    rw [ih]
    simp [overlay_one, draw_ellipse, draw_text, overlayOps]

/-- The overlay fold preserves the image dimensions. -/
theorem overlay_foldl_dims (tw th : String → Nat) (els : List Elem) :
    ∀ (k : Nat) (img : PILImage),
      ((enumerate1 k els).foldl (fun im p => overlay_one tw th im p.1 p.2) img).width =
        img.width ∧
      ((enumerate1 k els).foldl (fun im p => overlay_one tw th im p.1 p.2) img).height =
        img.height := by
  induction els with
  | nil => intro k img; simp [enumerate1]
  | cons el rest ih =>
    intro k img
    simpa [enumerate1, overlay_one, draw_ellipse, draw_text] using
      ih (k + 1) (overlay_one tw th img k el)

/-- The labels drawn by the overlay loop starting at index `k` are
`k, k+1, …` in order. -/
theorem labelsOf_overlayOps (tw th : String → Nat) (els : List Elem) :
    ∀ k : Nat, labelsOf (overlayOps tw th k els) =
      (List.range els.length).map (fun i => toString (k + i)) := by
  induction els with
  | nil => intro k; simp [overlayOps, labelsOf]
  | cons el rest ih =>
    intro k
    have hstep : labelsOf (overlayOps tw th k (el :: rest)) =
        toString k :: labelsOf (overlayOps tw th (k + 1) rest) := rfl
    rw [hstep, ih (k + 1)]
    rw [show (el :: rest).length = rest.length + 1 from rfl, List.range_succ_eq_map]
    rw [List.map_cons, List.map_map]
    congr 1
    have hfun : (fun i => toString (k + 1 + i)) = ((fun i => toString (k + i)) ∘ Nat.succ) := by
      funext i
      simp only [Function.comp]
      congr 1
      omega
    rw [hfun]

/-- The overlay loop draws exactly two primitives (circle and label) per
registry entry. -/
theorem overlayOps_length (tw th : String → Nat) (els : List Elem) :
    ∀ k : Nat, (overlayOps tw th k els).length = 2 * els.length := by
  induction els with
  | nil => intro k; simp [overlayOps]
  | cons el rest ih =>
    intro k
    simp [overlayOps, ih (k + 1)]
    omega

/-- C8, counterexample: `_add_overlays` re-encodes with `format='PNG'`
unconditionally, so a JPEG input frame comes back PNG-encoded, not in
the same image format as its input. -/
theorem C8_counterexample :
    (add_overlays (fun _ => 8) (fun _ => 10) ⟨ImgFormat.jpeg, 640, 480, []⟩ [elemBtn]).fmt =
      ImgFormat.png ∧
    (⟨ImgFormat.jpeg, 640, 480, []⟩ : Encoded).fmt ≠ ImgFormat.png :=
  ⟨rfl, by decide⟩

/-- C8, amended: `_add_overlays` returns a fresh buffer that is always
PNG-encoded (the same format as the input exactly when the input is
PNG, as captured frames are), has the input's pixel dimensions, keeps
the input content and appends exactly one circle marker and one index
label per registry entry, labelled `1..N` in registry order; the input
buffer itself is never written to (the embedding is pure, as Python
`bytes` are immutable). -/
theorem C8_add_overlays (tw th : String → Nat) (frame : Encoded) (elements : List Elem) :
    (add_overlays tw th frame elements).fmt = ImgFormat.png ∧
    (add_overlays tw th frame elements).width = frame.width ∧
    (add_overlays tw th frame elements).height = frame.height ∧
    (add_overlays tw th frame elements).content =
      frame.content ++ overlayOps tw th 1 elements ∧
    labelsOf (overlayOps tw th 1 elements) =
      (List.range elements.length).map (fun i => toString (1 + i)) ∧
    (overlayOps tw th 1 elements).length = 2 * elements.length := by
  refine ⟨rfl, ?_, ?_, ?_, labelsOf_overlayOps tw th elements 1,
    overlayOps_length tw th elements 1⟩
  · exact (overlay_foldl_dims tw th elements 1 (image_open frame)).1
  · exact (overlay_foldl_dims tw th elements 1 (image_open frame)).2
  · exact overlay_foldl_content tw th elements 1 (image_open frame)

end TerminalBrowser
